import Mathlib

/-!
Verification of the mobile-device emulation core of minimega: the SMS PDU
codec (`minimodem`), the GSM modem command handlers, the Wi-Fi supplicant
emulator (`miniwifi`), the phone-number allocator, the NMEA emitter, and the
access-point visibility computation.

Go values are embedded as follows: `byte` is `Nat` with explicit `% 256`
where Go arithmetic wraps, `[]byte` and `string` are `List Nat` (byte
values / ASCII codes), `int`/`int64` are `Int` or `Nat`, and fallible code
returns `Except`/`Option`.  A Go runtime panic (out-of-range slice or index,
assignment to an entry of a nil map) is a distinct outcome from a returned
`error`; the type `GoRes` separates the two.
-/

set_option maxRecDepth 40000

deriving instance DecidableEq for Except

/-- Outcome of a Go computation: either a value or a runtime crash
(out-of-range slice/index, nil-map assignment). A returned Go `error` is
not a crash; functions that return errors use `Option`/`Bool`/`Except`
inside the `val` payload, exactly as the Go signatures pair a value with
an `error`. -/
inductive GoRes (α : Type) where
  | crash : GoRes α
  | val : α → GoRes α
deriving DecidableEq, Repr

namespace GoRes

def bind : GoRes α → (α → GoRes β) → GoRes β
  | .crash, _ => .crash
  | .val a, f => f a

instance : Monad GoRes where
  pure := GoRes.val
  bind := GoRes.bind

def isVal : GoRes α → Bool
  | .crash => false
  | .val _ => true

end GoRes

/-- Go slice expression `s[a:b]`: panics unless `a <= b <= len(s)`. -/
def goSlice (s : List Nat) (a b : Nat) : GoRes (List Nat) :=
  if a ≤ b ∧ b ≤ s.length then .val ((s.drop a).take (b - a)) else .crash

/-- Go slice expression `s[a:]`: panics unless `a <= len(s)`. -/
def goSliceFrom (s : List Nat) (a : Nat) : GoRes (List Nat) :=
  if a ≤ s.length then .val (s.drop a) else .crash

/-- Go index expression `s[i]`: panics unless `i < len(s)`. -/
def goIndex (s : List Nat) (i : Nat) : GoRes Nat :=
  if i < s.length then .val (s.get! i) else .crash

/-- ASCII codes of a Lean string literal, for writing Go string constants. -/
def strBytes (s : String) : List Nat :=
  s.data.map Char.toNat

/-- Value of one hexadecimal character (Go `encoding/hex.fromHexChar`):
`0`-`9`, `a`-`f`, `A`-`F`. -/
def hexDigitVal (c : Nat) : Option Nat :=
  if 48 ≤ c ∧ c ≤ 57 then some (c - 48)
  else if 97 ≤ c ∧ c ≤ 102 then some (c - 97 + 10)
  else if 65 ≤ c ∧ c ≤ 70 then some (c - 65 + 10)
  else none

/-- Go `hex.DecodeString` with its error ignored (as every call site in the
PDU codec does): returns the bytes decoded before the first invalid pair or
odd-length tail, which is exactly what the ignored-error calls observe. -/
def hexDecode : List Nat → List Nat
  | c1 :: c2 :: rest =>
    match hexDigitVal c1, hexDigitVal c2 with
    | some h, some l => (16 * h + l) :: hexDecode rest
    | _, _ => []
  | _ => []

/-- One lowercase hexadecimal character for a value `0`-`15`. -/
def hexChar (v : Nat) : Nat :=
  if v < 10 then 48 + v else 97 + v - 10

/-- Go `hex.EncodeToString`: lowercase hex, two characters per byte. -/
def hexEncode (b : List Nat) : List Nat :=
  b.foldr (fun x acc => hexChar (x / 16 % 16) :: hexChar (x % 16) :: acc) []

/-- Go `byte` left shift: truncates to 8 bits. -/
def byteShiftL (b k : Nat) : Nat :=
  (b <<< k) % 256

/-- Decimal digit characters of a natural number (Go `strconv.Itoa` for
non-negative values); fuel-based structural recursion, exact for all
arguments below `10^fuel`. -/
def natDigitsAux : Nat → Nat → List Nat
  | 0, _ => []
  | f + 1, n => if n < 10 then [48 + n] else natDigitsAux f (n / 10) ++ [48 + n % 10]

/-- Go `strconv.Itoa` on an `int`. -/
def goItoa (i : Int) : List Nat :=
  if i < 0 then 45 :: natDigitsAux 30 (-i).toNat else natDigitsAux 30 i.toNat

def isDigitChar (c : Nat) : Bool :=
  48 ≤ c ∧ c ≤ 57

/-- Numeric value of a list of decimal digit characters. -/
def digitsVal (s : List Nat) : Nat :=
  s.foldl (fun acc c => 10 * acc + (c - 48)) 0

/-- Go `strconv.Atoi`, restricted to the unsigned shapes that occur in this
code base (digit strings; any other character, the empty string, and values
out of `int64` range produce an error, modelled as `none`). -/
def goAtoi (s : List Nat) : Option Int :=
  if s ≠ [] ∧ s.all isDigitChar ∧ digitsVal s < 2 ^ 63 then
    some (Int.ofNat (digitsVal s))
  else none


/-! ## minimodem: the `Message` type and the SMS PDU codec (sms.go, pdu.go) -/

set_option linter.dupNamespace false

/-- `minimodem.Message`. `Message` (the text) is a byte list; `RefId` is the
two-byte reference id. The wall-clock `Time` field is not modelled. -/
structure Message where
  Src : Int
  Dst : Int
  Message : List Nat
  RefLen : Nat
  RefId : Nat × Nat
  TotParts : Nat
  PartId : Nat
deriving DecidableEq, Repr

/-- The zero value `Message{}`. -/
def zeroMessage : Message :=
  ⟨0, 0, [], 0, (0, 0), 0, 0⟩

/-- The pair-swapping loop shared by `swizzle` and `unswizzle`
(`for i := 0; i < len(pn); i += 2 { out += pn[i+1], pn[i] }`); both callers
pass an even-length list. -/
def swapPairs : List Nat → List Nat
  | a :: b :: rest => b :: a :: swapPairs rest
  | _ => []

/-- `minimodem.swizzle`: pad an odd-length digit string with `'F'`, swap
nibble pairs, hex-decode. -/
def swizzle (pn : List Nat) : List Nat :=
  let pn := if pn.length % 2 = 1 then pn ++ [70] else pn
  hexDecode (swapPairs pn)

/-- `minimodem.unswizzle`: hex-encode, swap character pairs, strip one
trailing `'f'`. Indexing `pn[len(pn)-1]` panics when the input is empty. -/
def unswizzle (s : List Nat) : GoRes (List Nat) :=
  let a := hexEncode s
  let pn := swapPairs a
  if pn = [] then .crash
  else .val (if pn.getLast! = 102 then pn.dropLast else pn)

/-- `minimodem.btoi`. -/
def btoi (b : Bool) : Nat :=
  if b then 1 else 0

/-- The septet-packing loop of `minimodem.PduUserDataEncode`: packs the
bytes of `s` (each a septet) into `ceil(7*len/8)` octets. The scratch row
`ret[length-1]` is discarded at the end, as in the source. Go's
`prevrow := row - 1 + btoi(idx%8 == 0)` is computed as
`row + btoi(idx%8 == 0) - 1`, which is equal over the integers and stays
within `Nat`. -/
def gsmEncodeCore (s : List Nat) : List Nat :=
  let length := (7 * s.length + 7) / 8 + 1
  let ret := s.enum.foldl
    (fun ret (p : Nat × Nat) =>
      let idx := p.1
      let char := p.2
      let row := idx - idx / 8
      let prevrow := row + btoi (idx % 8 = 0) - 1
      let lsb := byteShiftL char (8 - idx % 8)
      let ret := ret.set prevrow ((ret.get! prevrow + lsb) % 256)
      let msb := char >>> (idx % 8)
      ret.set row ((ret.get! row + msb) % 256))
    (List.replicate length 0)
  ret.take (length - 1)

/-- One step of the septet-unpacking loop of `minimodem.PduUserDataDecode`:
`p` is the (index, octet) pair. -/
def gsmDecodeStep (s : List Nat) (p : Nat × Nat) : List Nat :=
  let i := p.1
  let idx := i + i / 7
  let lsb := byteShiftL p.2 (i % 7) &&& 127
  let s := s.set idx ((s.get! idx + lsb) % 256)
  let msb := p.2 >>> (7 - i % 7)
  s.set (idx + 1) ((s.get! (idx + 1) + msb) % 256)

/-- The septet-unpacking loop of `minimodem.PduUserDataDecode`: unpacks
octets back into `floor(8*len/7)` septet bytes (the final scratch byte is
stripped, as in the source). -/
def gsmDecodeCore (b : List Nat) : List Nat :=
  let length := 8 * b.length / 7 + 1
  let s := b.enum.foldl gsmDecodeStep (List.replicate length 0)
  s.take (length - 1)

/-- `minimodem.PduUserDataEncode`: prepend the UDH padding septets for
multi-part messages, reject over-long texts, septet-pack, then overwrite the
leading packed bytes with the UDH itself. `byte(x)` conversions of the
reference/part counters are `% 256`. -/
def PduUserDataEncode (msg : Message) : Except String (List Nat) := do
  let s := msg.Message
  let header : List Nat ←
    if msg.RefLen = 0 then pure []
    else if msg.RefLen = 1 then
      pure [5, 0, 3, msg.RefId.1 % 256, msg.TotParts % 256, msg.PartId % 256]
    else if msg.RefLen = 2 then
      pure [6, 8, 4, msg.RefId.1 % 256, msg.RefId.2 % 256, msg.TotParts % 256,
        msg.PartId % 256]
    else .error ("invalid CSMS length")
  let s := (if msg.RefLen = 1 then List.replicate 7 0
            else if msg.RefLen = 2 then List.replicate 8 0
            else []) ++ s
  if 160 < s.length then
    .error ("message too long. max length is 160 characters, or 154/153 if a multi-part message")
  else
    let userData := gsmEncodeCore s
    if header = [] then pure userData
    else pure (header ++ userData.drop header.length)

/-- `minimodem.pduSmsPack`: assemble the hex PDU for an outbound
(DELIVER-style) frame.  `SMSCLen = 00`, `PDUType = 40` iff `RefLen != 0`,
sender address from `strconv.Itoa(msg.Src)` nibble-swizzled, zero protocol
id, 7-bit encoding, blank 7-byte timestamp, and the user-data length in
septets (`len`, `len+7` or `len+8` by `RefLen`). -/
def pduSmsPack (msg : Message) : Except String (List Nat) := do
  let pduType : Nat := if msg.RefLen ≠ 0 then 64 else 0
  let senAdr := goItoa msg.Src
  let senAdrLen := senAdr.length % 256
  let senderNum := swizzle senAdr
  let usrDatLen : Nat :=
    if msg.RefLen = 0 then msg.Message.length % 256
    else if msg.RefLen = 1 then (msg.Message.length + 7) % 256
    else if msg.RefLen = 2 then (msg.Message.length + 8) % 256
    else 0
  let ud ← PduUserDataEncode msg
  let bytes := [0, pduType, senAdrLen, 129] ++ senderNum ++ [0, 0] ++
    List.replicate 7 0 ++ [usrDatLen] ++ ud
  pure (hexEncode bytes)

/-- The no-UDH path of `minimodem.PduUserDataDecode` (`UDHLen == 0xFF`):
septet-unpack the user data and truncate to `usrDatLen` when longer. -/
def pduDecodePlain (usrDatLen : Nat) (b : List Nat) : Message :=
  let s := gsmDecodeCore b
  let s := if usrDatLen < s.length then s.take usrDatLen else s
  { zeroMessage with Message := s }

/-- The shared tail of the UDH path of `minimodem.PduUserDataDecode`:
zero the `UDHLen + 1` header bytes, septet-unpack, strip `UDHLen + 2`
leading septets, truncate to `usrDatLen` when longer, and attach the
concatenation fields.  Slicing past the end of `b` or of the unpacked
septets is a Go panic (`.crash`). -/
def pduDecodeUDHBody (usrDatLen : Nat) (b : List Nat) (refLen : Nat)
    (refId : Nat × Nat) (totParts partId : Nat) : GoRes Message :=
  let u := b.head!
  if u + 1 ≤ b.length then
    let s := gsmDecodeCore (List.replicate (u + 1) 0 ++ b.drop (u + 1))
    if u + 2 ≤ s.length then
      let s := s.drop (u + 2)
      let s := if usrDatLen < s.length then s.take usrDatLen else s
      .val ⟨0, 0, s, refLen, refId, totParts, partId⟩
    else .crash
  else .crash

/-- The UDH path of `minimodem.PduUserDataDecode` (entered when
`b[0] <= 0x06`): the concatenation fields are chosen by the IEI byte
`b[1]` — `00` reads a 1-byte reference from `b[3]` and parts from
`b[4]`/`b[5]`, `08` reads a 2-byte reference from `b[3]`/`b[4]` and parts
from `b[5]`/`b[6]`, anything else sets no fields — and the header is then
stripped by `pduDecodeUDHBody`.  The length guards mirror the Go index
expressions, which panic when `b` is too short. -/
def pduDecodeUDH (usrDatLen : Nat) (b : List Nat) : GoRes Message :=
  if 2 ≤ b.length then
    if b.get! 1 = 0 then
      if 6 ≤ b.length then
        pduDecodeUDHBody usrDatLen b 1 (b.get! 3, 0) (b.get! 4) (b.get! 5)
      else .crash
    else if b.get! 1 = 8 then
      if 7 ≤ b.length then
        pduDecodeUDHBody usrDatLen b 2 (b.get! 3, b.get! 4) (b.get! 5)
          (b.get! 6)
      else .crash
    else pduDecodeUDHBody usrDatLen b 0 (0, 0) 0 0
  else .crash

/-- `minimodem.PduUserDataDecode`: empty user data yields the zero
`Message`; a first byte `<= 0x06` is taken as a User Data Header
(regardless of the PDU-type byte, which this function never sees); any
other first byte decodes the data unmodified. -/
def PduUserDataDecode (usrDatLen : Nat) (b : List Nat) : GoRes Message :=
  if b.isEmpty then .val zeroMessage
  else if b.head! ≤ 6 then pduDecodeUDH usrDatLen b
  else .val (pduDecodePlain usrDatLen b)

/-- `minimodem.pduSmsUnpack` on the hex string `pdu` (a list of ASCII
codes).  Mirrors the source's offset walk: SMSC field, PDU type,
`TPMsgRef` when bit 0 is set, sender address (rounded up to even length),
protocol id and encoding, 7-byte timestamp when `PDUType&3 == 0`, validity
byte when bit 4 is set, user-data length, then the rest as user data.  The
result pairs the message with the Go error flag (`true` = error returned);
on the error path the source returns `Message{}`. -/
def pduSmsUnpack (pdu : List Nat) : GoRes (Message × Bool) := do
  let smscLenB ← goSlice pdu 0 2
  let smscLen ← goIndex (hexDecode smscLenB) 0
  if 0 < smscLen then do
    let tB ← goSlice pdu 2 4
    let _ ← goIndex (hexDecode tB) 0
    let _ ← goSlice pdu 4 (2 + 2 * smscLen)
  let o := 2 + smscLen
  let ptB ← goSlice pdu o (o + 2)
  let pduType ← goIndex (hexDecode ptB) 0
  let o := o + 2
  let o ←
    if pduType &&& 1 ≠ 0 then do
      let rB ← goSlice pdu o (o + 2)
      let _ ← goIndex (hexDecode rB) 0
      pure (o + 2)
    else pure o
  let salB ← goSlice pdu o (o + 2)
  let senAdrLen ← goIndex (hexDecode salB) 0
  let satB ← goSlice pdu (o + 2) (o + 4)
  let _ ← goIndex (hexDecode satB) 0
  let sal := if senAdrLen % 2 = 1 then senAdrLen + 1 else senAdrLen
  let snB ← goSlice pdu (o + 4) (o + 4 + sal)
  let senderNum := hexDecode snB
  let o := o + 4 + sal
  let piB ← goSlice pdu o (o + 2)
  let _ ← goIndex (hexDecode piB) 0
  let deB ← goSlice pdu (o + 2) (o + 4)
  let _ ← goIndex (hexDecode deB) 0
  let o := o + 4
  let o ←
    if pduType &&& 3 = 0 then do
      let _ ← goSlice pdu o (o + 14)
      pure (o + 14)
    else pure o
  let o ←
    if pduType &&& 16 ≠ 0 then do
      let vB ← goSlice pdu o (o + 2)
      let _ ← goIndex (hexDecode vB) 0
      pure (o + 2)
    else pure o
  let udlB ← goSlice pdu o (o + 2)
  let usrDatLen ← goIndex (hexDecode udlB) 0
  let udB ← goSliceFrom pdu (o + 2)
  let userData := hexDecode udB
  let msg ← PduUserDataDecode usrDatLen userData
  let numStr ← unswizzle senderNum
  match goAtoi numStr with
  | none => pure (zeroMessage, true)
  | some num =>
    let msg :=
      if pduType &&& 3 = 0 then { msg with Src := num }
      else if pduType &&& 3 = 1 then { msg with Dst := num }
      else msg
    pure (msg, false)


/-- The chunking loop of `minimodem.NewMessage`
(`for i := 0; len(msg) > 0; i++`): successive pieces of at most 152 bytes.
Structural recursion on a fuel argument instantiated with the list length. -/
def msgChunksAux : Nat → List Nat → List (List Nat)
  | 0, _ => []
  | fuel + 1, msg =>
    if msg.isEmpty then []
    else msg.take 152 :: msgChunksAux fuel (msg.drop 152)

/-- `minimodem.NewMessage`: a text under 160 bytes becomes one single-part
message; anything longer is split into parts of at most 152 bytes with
`RefLen = csmsSize = 2`, a common reference id, `TotParts = ceil(len/152)`
and 1-based `PartId`.  The reference id, drawn from `crypto/rand` in the
source (`randomRefId`), is passed in as the parameter `refId`. -/
def NewMessage (src dst : Int) (refId : Nat × Nat) (msg : List Nat) :
    List Message :=
  if msg.length < 160 then
    [{ zeroMessage with Src := src, Dst := dst, Message := msg }]
  else
    let totParts := msg.length / 152 + (if msg.length % 152 ≠ 0 then 1 else 0)
    (msgChunksAux msg.length msg).enum.map fun (p : Nat × List Nat) =>
      { Src := src, Dst := dst, Message := p.2, RefLen := 2, RefId := refId,
        TotParts := totParts, PartId := p.1 + 1 }

/-- The round trip checked by the repo's `TestPdu`: split with `NewMessage`,
pack each part with `pduSmsPack`, unpack each resulting hex PDU with
`pduSmsUnpack`, and concatenate the unpacked `Message` fields in part
order.  `none` when any step returns an error or panics. -/
def smsRoundTrip (src dst : Int) (refId : Nat × Nat) (s : List Nat) :
    Option (List Nat) :=
  (NewMessage src dst refId s).foldl
    (fun acc m =>
      acc.bind fun sofar =>
        match pduSmsPack m with
        | .error _ => none
        | .ok pdu =>
          match pduSmsUnpack pdu with
          | .crash => none
          | .val (m2, e) => if e then none else some (sofar ++ m2.Message))
    (some [])

/-! ## Phone-number allocation (`NumberPrefix.Next`, android.go) -/

/-- The digit-counting loop `for i := n; i > 0; i /= 10 { len++ }` of
`NumberPrefix.Next`, on the non-negative values it is applied to.
Fuel-based structural recursion; fuel 64 is exact for every value a Go
`int64` can hold. -/
def goDigitCount : Nat → Nat → Nat
  | 0, _ => 0
  | fuel + 1, n => if 0 < n then goDigitCount fuel (n / 10) + 1 else 0

/-- `NumberPrefix.Next` (android.go).  The `Counter` collaborator
(`c.Next()`), whose definition is not under `src/`, is modelled from the
spec: a monotonic source of non-negative integers starting at 0, here the
`Nat` argument `c`; the returned pair carries the advanced counter.
A prefix whose digit loop counts 10 digits is returned as-is (with no
error) on every call; otherwise the id width plus prefix width may not
exceed 10, and the result is the prefix scaled by `10^(10-prefixLen)` plus
the counter value (`-1` means no prefix and scales 0). -/
def numberNext (n : Int) (c : Nat) : Except String Int × Nat :=
  let id := c
  let prefixLen := if 0 < n then goDigitCount 64 n.toNat else 0
  let prefixLen := if n = -1 then 0 else prefixLen
  if prefixLen = 10 then (.ok n, c + 1)
  else
    let idLen := goDigitCount 64 id
    let idLen := if id = 0 then 1 else idLen
    if 10 < idLen + prefixLen then
      (.error ("no numbers left to allocate"), c + 1)
    else
      let res : Int := if n = -1 then 0 else n
      (.ok (res * (10 : Int) ^ (10 - prefixLen) + id), c + 1)

/-! ## NMEA emission (`toNMEAString`, android.go) -/

/-- The `fmt.Sprintf` skeleton of `toNMEAString`:
`"$GPGGA,%s,%09.4f,%s,%010.4f,%s,1,05,%.2f,0.0,M,0.0,M,,,*"`.  The
floating-point fields (UTC time, scaled latitude/longitude, cardinal
letters, accuracy) are abstracted as pre-formatted strings, since `float64`
formatting is outside the embedding; the byte-level checksum logic below is
independent of their contents. -/
def nmeaSprintf (t la lac lo loc acc : List Nat) : List Nat :=
  strBytes ("$GPGGA,") ++ t ++ strBytes (",") ++ la ++ strBytes (",") ++
    lac ++ strBytes (",") ++ lo ++ strBytes (",") ++ loc ++
    strBytes (",1,05,") ++ acc ++ strBytes (",0.0,M,0.0,M,,,*")

/-- The checksum loop of `toNMEAString`: XOR over the indexed bytes of the
formatted sentence, skipping `i == 0` and `i == len(nmeaBytes)` (the second
test never fires, since `range` indices stop at `len-1`). -/
def nmeaChecksum (nmeaBytes : List Nat) : Nat :=
  nmeaBytes.enum.foldl
    (fun ch (p : Nat × Nat) =>
      if p.1 = 0 ∨ p.1 = nmeaBytes.length then ch else ch ^^^ p.2)
    0

/-- `toNMEAString` after formatting: the sentence followed by
`hex.EncodeToString([]byte{checksum})`. -/
def toNMEAString (t la lac lo loc acc : List Nat) : List Nat :=
  let nmea := nmeaSprintf t la lac lo loc acc
  nmea ++ hexEncode [nmeaChecksum nmea]

/-- The checksum the spec describes: an 8-bit XOR of all characters
strictly between, and not including, the `'$'` and the `'*'`.  For a
sentence that starts with `'$'` and ends with `'*'` this is the fold over
the bytes with the first and last dropped. -/
def specNMEAXor (nmea : List Nat) : Nat :=
  ((nmea.drop 1).dropLast).foldl (fun a b => a ^^^ b) 0


/-! ## miniwifi: the supplicant command handlers relevant to `SET_NETWORK`
and `SELECT_NETWORK` (wifi.go / commands.go) -/

/-- The miniwifi modem state used by these handlers: `networks` maps ids to
property maps (both as association lists; Go map iteration order plays no
role in the handled commands), `selectedNetwork` is `-1` when none. -/
structure WifiModem where
  networks : List (Nat × List (List Nat × List Nat))
  selectedNetwork : Int
deriving DecidableEq, Repr

/-- Go map read `m[k]` (`nil`/missing gives the zero value to readers). -/
def assocGet (l : List (Nat × List (List Nat × List Nat))) (k : Nat) :
    Option (List (List Nat × List Nat)) :=
  (l.find? fun p => p.1 = k).map Prod.snd

/-- Go map write on a property map: replace the binding when the key is
present, otherwise add it. -/
def propSet (l : List (List Nat × List Nat)) (k v : List Nat) :
    List (List Nat × List Nat) :=
  if l.any fun p => p.1 = k then
    l.map fun p => if p.1 = k then (k, v) else p
  else l ++ [(k, v)]

/-- Go map write on the network table. -/
def netSet (l : List (Nat × List (List Nat × List Nat)))
    (k : Nat) (v : List (List Nat × List Nat)) :
    List (Nat × List (List Nat × List Nat)) :=
  if l.any fun p => p.1 = k then
    l.map fun p => if p.1 = k then (k, v) else p
  else l ++ [(k, v)]

/-- Go map read on a property map with the zero value for missing keys
(`m.networks[id]["ssid"]` reads from a possibly-nil inner map). -/
def propGet (l : List (List Nat × List Nat)) (k : List Nat) : List Nat :=
  ((l.find? fun p => p.1 = k).map Prod.snd).getD []

def isWordChar (c : Nat) : Bool :=
  (48 ≤ c ∧ c ≤ 57) ∨ (65 ≤ c ∧ c ≤ 90) ∨ (97 ≤ c ∧ c ≤ 122) ∨ c = 95

def isPrintChar (c : Nat) : Bool :=
  32 ≤ c ∧ c ≤ 126

/-- Drop an expected literal prefix. -/
def dropLit (lit s : List Nat) : Option (List Nat) :=
  if lit.isPrefixOf s then some (s.drop lit.length) else none

/-- Model of the Go regexp
`SET_NETWORK ([0-9]+) ([[:word:]]+) ([[:print:]]+)` applied with
`FindStringSubmatch` to a command that begins with `SET_NETWORK` (the only
way `setNetworkProperty` is reached): a leftmost-first match with greedy
captures takes the maximal digit run, a space, the maximal word-character
run, a space, and the maximal printable run.  Exact for every command of
that shape; other commands fail to parse here as they do there. -/
def setNetworkParse (cmd : List Nat) :
    Option (List Nat × List Nat × List Nat) := do
  let r ← dropLit (strBytes ("SET_NETWORK ")) cmd
  let ds := r.takeWhile isDigitChar
  let r := r.dropWhile isDigitChar
  if ds.isEmpty then none
  else do
    let r ← dropLit (strBytes (" ")) r
    let key := r.takeWhile isWordChar
    let r := r.dropWhile isWordChar
    if key.isEmpty then none
    else do
      let r ← dropLit (strBytes (" ")) r
      let value := r.takeWhile isPrintChar
      if value.isEmpty then none else some (ds, key, value)

/-- `miniwifi.setNetworkProperty` plus the `SET_NETWORK` arm of
`handleCommand`.  Returns the new state, the bytes written to the control
socket (`OK` on success, `NULL` when the regex or `Atoi` fails), and the
list of SSIDs published on `NetworkNameChan` — which this handler never
touches.  In Go, `m.networks[id][key] = value` panics when `id` has no
entry (assignment to a nil map). -/
def setNetworkStep (m : WifiModem) (cmd : List Nat) :
    GoRes (WifiModem × List Nat × List (List Nat)) :=
  match setNetworkParse cmd with
  | none => .val (m, strBytes ("NULL"), [])
  | some (ds, key, value) =>
    match goAtoi ds with
    | none => .val (m, strBytes ("NULL"), [])
    | some id =>
      match assocGet m.networks id.toNat with
      | none => .crash
      | some props =>
        let nets := netSet m.networks id.toNat (propSet props key value)
        .val ({ m with networks := nets }, strBytes ("OK"), [])

/-- Model of the Go regexp `SELECT_NETWORK ([0-9]+)` applied to a command
beginning with `SELECT_NETWORK`. -/
def selectNetworkParse (cmd : List Nat) : Option (List Nat) := do
  let r ← dropLit (strBytes ("SELECT_NETWORK ")) cmd
  let ds := r.takeWhile isDigitChar
  if ds.isEmpty then none else some ds

/-- `miniwifi.selectNetwork`: set `selectedNetwork` and publish
`m.networks[id]["ssid"]` on `NetworkNameChan` (reading a missing network
yields the empty string, which is still published).  A parse or `Atoi`
failure leaves the state unchanged and publishes nothing. -/
def selectNetworkStep (m : WifiModem) (cmd : List Nat) :
    WifiModem × List (List Nat) :=
  match selectNetworkParse cmd with
  | none => (m, [])
  | some ds =>
    match goAtoi ds with
    | none => (m, [])
    | some id =>
      ({ m with selectedNetwork := id },
       [propGet ((assocGet m.networks id.toNat).getD []) (strBytes ("ssid"))])

/-! ## minimodem: the modem state, the CMGS assignment arm, and PushSMS
(modem.go) -/

/-- The slice of `minimodem.Modem`/`Status` state these handlers read and
write. -/
structure Modem where
  Number : Int
  cmgf : Nat
  mr : Nat
  Inbox : List Message
  Outbox : List Message
deriving DecidableEq, Repr

/-- The `CMGS` arm of `Modem.parseAssignment` (modem.go lines 210-231),
after the `\r\n> ` prompt: `inputRaw` is what `ReadString('\x1a')`
returned (terminator included); the handler strips the last byte, unpacks
the PDU, logs—and otherwise ignores—any unpack error, overwrites `Src`
with the modem's `Number`, sends the message on `MessageChan`, appends it
to the `Outbox`, replies `+CMGS: <mr>`, and increments the cyclic `mr`.
Result: new state, reply bytes, the `waserror` flag, and the messages sent
on `MessageChan`.  `input[:len(input)-1]` on an empty read is a panic. -/
def cmgsStep (m : Modem) (inputRaw : List Nat) :
    GoRes (Modem × List Nat × Bool × List Message) :=
  if m.cmgf = 1 then .val (m, [], false, [])
  else if inputRaw.isEmpty then .crash
  else
    match pduSmsUnpack inputRaw.dropLast with
    | .crash => .crash
    | .val (msg0, _err) =>
      let msg := { msg0 with Src := m.Number }
      .val ({ m with Outbox := m.Outbox ++ [msg], mr := (m.mr + 1) % 256 },
            strBytes ("\r\n+CMGS: ") ++ goItoa (Int.ofNat m.mr) ++
              strBytes ("\r\n"),
            false, [msg])

/-- `Modem.PushSMS` (modem.go lines 113-127): pack the message; on a pack
error return it with nothing changed and nothing written; otherwise append
the message to the `Inbox`, run the debug re-unpack `pduSmsUnpack(pdu)`
(whose panics propagate), and write one `\r\n+CMT: 0\r\n<pdu>\r\n` frame.
Result: new state, bytes written to the guest, and the returned error. -/
def PushSMS (m : Modem) (msg : Message) :
    GoRes (Modem × List Nat × Option String) :=
  match pduSmsPack msg with
  | .error e => .val (m, [], some e)
  | .ok pdu =>
    let m := { m with Inbox := m.Inbox ++ [msg] }
    match pduSmsUnpack pdu with
    | .crash => .crash
    | .val _ =>
      .val (m, strBytes ("\r\n+CMT: 0\r\n") ++ pdu ++ strBytes ("\r\n"), none)

/-! ## Location and radio propagation (location.go, android.go)

The Go code computes with `float64`; the embedding uses real numbers, the
standard idealization — every claim settled here depends only on coarse
order-of-magnitude facts that hold for both. -/

/-- `minimega.location` (the `accuracy` field plays no role in distance or
signal computations). -/
structure Location where
  lat : ℝ
  long : ℝ
  accuracy : ℝ

/-- Go `math.Atan2(y, x)`. -/
noncomputable def goAtan2 (y x : ℝ) : ℝ :=
  if 0 < x then Real.arctan (y / x)
  else if x < 0 then
    if 0 ≤ y then Real.arctan (y / x) + Real.pi
    else Real.arctan (y / x) - Real.pi
  else
    if 0 < y then Real.pi / 2
    else if y < 0 then -(Real.pi / 2)
    else 0

/-- `minimega.locationDistance`: haversine great-circle distance on a
sphere of radius 6,371,000 m, inputs in decimal degrees. -/
noncomputable def locationDistance (p1 p2 : Location) : ℝ :=
  let R : ℝ := 6371000
  let f1 := p1.lat * Real.pi / 180
  let f2 := p2.lat * Real.pi / 180
  let df := (p2.lat - p1.lat) * Real.pi / 180
  let dl := (p2.long - p1.long) * Real.pi / 180
  let a := Real.sin (df / 2) * Real.sin (df / 2) +
    Real.cos f1 * Real.cos f2 * Real.sin (dl / 2) * Real.sin (dl / 2)
  let c := 2 * goAtan2 (Real.sqrt a) (Real.sqrt (1 - a))
  R * c

/-- `minimega.accessPoint`: `power` is the dBm figure (an `int`), `mW` the
configured milliwatt EIRP kept for display; `mW = 0` marks a universal
access point. -/
structure AccessPoint where
  ssid : List Nat
  vlan : Int
  loc : Location
  power : Int
  mW : ℝ

/-- `accessPoint.signalStrength`: transmitter power minus the free-space
path loss at 2400 MHz, with the distance clamped from 0 to 0.01 m. -/
noncomputable def signalStrength (ap : AccessPoint) (loc : Location) : ℝ :=
  let f : ℝ := 2400
  let d := locationDistance loc ap.loc
  let d := if d = 0 then 0.01 else d
  let fspl := 20 * Real.logb 10 d + 20 * Real.logb 10 f - 27.55
  (ap.power : ℝ) - fspl

/-- The per-access-point decision inside `updateAccessPointsVisible`
(android.go lines 518-535): an AP whose signal at the device's location
exceeds −70 dBm is reported as `miniwifi.APInfo{SSID, Power: ap.power}`
(the *configured* power); otherwise a universal AP (`mW == 0`) is reported
at −44; otherwise the AP is omitted.  (`APInfo` itself lives in the
miniwifi package sources not included under `src/`; it is the SSID/power
pair handed to `UpdateScanResults`, modelled as such.) -/
noncomputable def visibleEntry (ap : AccessPoint) (loc : Location) :
    Option (List Nat × Int) :=
  if -70 < signalStrength ap loc then some (ap.ssid, ap.power)
  else if ap.mW = 0 then some (ap.ssid, -44)
  else none

/-- The scan-result list `updateAccessPointsVisible` hands to one running
device's Wi-Fi modem, for the given registry of access points (the order
of Go map iteration is immaterial to the membership facts proved below). -/
noncomputable def updateAccessPointsVisible (aps : List AccessPoint)
    (loc : Location) : List (List Nat × Int) :=
  aps.filterMap fun ap => visibleEntry ap loc

/-! ## Spec-side definitions used to state claims -/

/-- Digit width of a natural number as the spec counts it: the number of
decimal digits, with `decWidth 0 = 0` (the width the allocator's counting
loop assigns to an absent prefix). -/
def decWidth (m : Nat) : Nat :=
  if m = 0 then 0 else Nat.log 10 m + 1

/-- Digit width of a counter value: the decimal representation of `0` is
`"0"`, one digit. -/
def counterWidth (c : Nat) : Nat :=
  if c = 0 then 1 else decWidth c

/-- Digit width of a prefix: `-1` (no prefix) has width 0. -/
def prefixWidth (p : Int) : Nat :=
  decWidth p.toNat

/-- The decode the claim calls *unmodified with the UDH stripped*: zero the
header bytes, septet-unpack, drop the `UDHLen + 2` leading septets, and
truncate to the user-data length when longer.  Stated from the source's
UDH branch so the amended C2 theorem can expose it without the panic
plumbing. -/
def udhStrip (usrDatLen : Nat) (b : List Nat) : List Nat :=
  let u := b.head!
  let s := (gsmDecodeCore (List.replicate (u + 1) 0 ++ b.drop (u + 1))).drop
    (u + 2)
  if usrDatLen < s.length then s.take usrDatLen else s


/-! ## Concrete instances used by the claim theorems -/

/-- A hand-built SMS-DELIVER PDU whose PDU-type byte is `00` — UDHI
(bit 0x40) clear — and whose user data begins with the bytes
`05 00 03 2a 02 01 62`: sender `5`, zero timestamp, user-data length 9. -/
def c2pdu : List Nat :=
  strBytes ("000001" ++ "81" ++ "f5" ++ "0000" ++ "00000000000000" ++ "09" ++
    "0500032a020162")
/-- The sentence `toNMEAString` formats for latitude 0, longitude 0,
accuracy 0 at UTC time 000000 (Go renders these fields as `000000`,
`0000.0000`, `N`, `00000.0000`, `E`, `0.00`). -/
def nmea0 : List Nat :=
  nmeaSprintf (strBytes ("000000")) (strBytes ("0000.0000")) (strBytes ("N"))
    (strBytes ("00000.0000")) (strBytes ("E")) (strBytes ("0.00"))
/-- The device location and access-point location of the C6
counterexample. -/
def loc6 : Location := ⟨37, -122, 1⟩

/-- The C6 counterexample access point: at `loc6`, configured power 100
dBm, 37 mW. -/
def ap6 : AccessPoint := ⟨strBytes ("wap"), 100, loc6, 100, 37⟩
/-- A universal (`mW = 0`) access point for the C6 witness. -/
def apU : AccessPoint := ⟨strBytes ("uap"), 1, loc6, 0, 0⟩

/-! ## Sanity checks of the embedding against the repo's own test vectors -/

/-- The known vector from `TestPdu`: destination 8675309 (Jenny), message
`testing1234567890`. -/
theorem pduSmsUnpack_known_vector :
    pduSmsUnpack
      (strBytes ("0001000781685703f9000011f4f29c9e769f63b219ad66bbe17230")) =
    .val (⟨0, 8675309, strBytes ("testing1234567890"), 0, (0, 0), 0, 0⟩,
      false) := by
  decide

/-- A short single-part message survives the round trip. -/
theorem smsRoundTrip_short :
    smsRoundTrip 1234567 7654321 (17, 42) (strBytes ("hello")) =
      some (strBytes ("hello")) := by
  decide

/-- The first expectations of `TestNextNumberPrefix`. -/
theorem numberNext_first_cases :
    numberNext 123456 0 = (.ok 1234560000, 1) ∧
    numberNext (-1) 5 = (.ok 5, 6) := by
  exact ⟨by decide, by decide⟩

/-! ## Helper lemmas -/

theorem goDigitCount_zero (fuel : Nat) : goDigitCount fuel 0 = 0 := by
  cases fuel <;> simp [goDigitCount]

theorem goDigitCount_of_bounds :
    ∀ (k fuel n : Nat), 10 ^ k ≤ n → n < 10 ^ (k + 1) → k + 1 ≤ fuel →
      goDigitCount fuel n = k + 1 := by
  intro k
  induction k with
  | zero =>
    intro fuel n h1 h2 hf
    obtain ⟨f, rfl⟩ : ∃ f, fuel = f + 1 := ⟨fuel - 1, by omega⟩
    have hn : 0 < n := by simpa using h1
    have hd : n / 10 = 0 := Nat.div_eq_of_lt (by simpa using h2)
    simp [goDigitCount, hn, hd, goDigitCount_zero]
  | succ k ih =>
    intro fuel n h1 h2 hf
    obtain ⟨f, rfl⟩ : ∃ f, fuel = f + 1 := ⟨fuel - 1, by omega⟩
    have hn : 0 < n := lt_of_lt_of_le (Nat.pos_pow_of_pos _ (by norm_num)) h1
    have hlo : 10 ^ k ≤ n / 10 := by
      rw [Nat.le_div_iff_mul_le (by norm_num)]
      calc 10 ^ k * 10 = 10 ^ (k + 1) := by ring
        _ ≤ n := h1
    have hhi : n / 10 < 10 ^ (k + 1) := by
      rw [Nat.div_lt_iff_lt_mul (by norm_num)]
      calc n < 10 ^ (k + 2) := h2
        _ = 10 ^ (k + 1) * 10 := by ring
    have := ih f (n / 10) hlo hhi (by omega)
    simp [goDigitCount, hn, this]

/-- The allocator's digit-count loop computes the decimal width for every
value below `10^fuel`. -/
theorem goDigitCount_eq (fuel n : Nat) (h : n < 10 ^ fuel) :
    goDigitCount fuel n = decWidth n := by
  rcases Nat.eq_zero_or_pos n with rfl | hn
  · simp [goDigitCount_zero, decWidth]
  · have hne : n ≠ 0 := hn.ne'
    have h1 : 10 ^ Nat.log 10 n ≤ n := Nat.pow_log_le_self 10 hne
    have h2 : n < 10 ^ (Nat.log 10 n + 1) :=
      Nat.lt_pow_succ_log_self (by norm_num) n
    have hf : Nat.log 10 n + 1 ≤ fuel := by
      by_contra hcon
      push_neg at hcon
      have : 10 ^ fuel ≤ 10 ^ Nat.log 10 n :=
        Nat.pow_le_pow_right (by norm_num) (by omega)
      omega
    rw [goDigitCount_of_bounds _ _ _ h1 h2 hf, decWidth, if_neg hne]

/-- C3 support: a positive ten-digit prefix is counted as width 10 by the
allocator's loop. -/
theorem goDigitCount_ten (n : Int) (h1 : 10 ^ 9 ≤ n) (h2 : n < 10 ^ 10) :
    goDigitCount 64 n.toNat = 10 := by
  have hlo : (10 : Nat) ^ 9 ≤ n.toNat := by
    have : ((10 : Int) ^ 9).toNat ≤ n.toNat := Int.toNat_le_toNat h1
    simpa using this
  have hhi : n.toNat < 10 ^ 10 := by
    have h0 : (0 : Int) ≤ n := le_trans (by norm_num) h1
    omega
  exact goDigitCount_of_bounds 9 64 n.toNat hlo hhi (by norm_num)


/-! ## Claim C3 -/

/-- C3 counterexample.  The claim says that for a 10-digit prefix "the
first call succeeds with the prefix as the allocated number, and every
subsequent call on the same counter fails".  On the code the 10-digit
branch (`prefixLen == 10`) returns the prefix with a nil error before the
counter width is ever examined, so the second call (counter value 1)
succeeds again — it does not fail.  (The repo's own allocator test skips
the out-of-numbers check precisely for this prefix.) -/
theorem c3_counterexample :
    numberNext 1234567890 0 = (.ok 1234567890, 1) ∧
    numberNext 1234567890 1 = (.ok 1234567890, 2) := by
  constructor <;> decide

/-- C3 amended: for every `NumberPrefix` with exactly 10 decimal digits and
*every* counter state, `Next` succeeds and returns the prefix itself; the
allocation never fails, so the prefix is returned on every call, not
exactly once. -/
theorem c3_amended (n : Int) (c : Nat) (h1 : 10 ^ 9 ≤ n) (h2 : n < 10 ^ 10) :
    numberNext n c = (.ok n, c + 1) := by
  have hpos : (0 : Int) < n := lt_of_lt_of_le (by norm_num) h1
  have hne : n ≠ -1 := by omega
  have hcount := goDigitCount_ten n h1 h2
  simp [numberNext, hpos, hne, hcount]

/-- C3 amended, witness at prefix 1234567890 with counter value 5. -/
theorem c3_amended_witness :
    ((10 : Int) ^ 9 ≤ 1234567890 ∧ (1234567890 : Int) < 10 ^ 10) ∧
    numberNext 1234567890 5 = (.ok 1234567890, 6) :=
  ⟨⟨by norm_num, by norm_num⟩, c3_amended 1234567890 5 (by norm_num) (by norm_num)⟩

/-! ## Claim C5 -/

/-- C5: for a prefix with 0–9 decimal digits (or the sentinel `-1`, width
0 and value 0) and any counter value in the Go `int64` range, `Next`
fails with the out-of-numbers error exactly when the digit width of the
counter value plus the digit width of the prefix exceeds 10, and otherwise
returns `p * 10^(10 - width p) + c`; so the k-th call on a fresh counter
returns `p * 10^(10 - width p) + (k-1)`.  In particular prefix 123456
still succeeds at counter value 9999 with 1234569999 (its 10,000th and
last success) and fails at counter value 10000. -/
theorem c5_next_formula :
    (∀ (p : Int) (c : Nat), (p = -1 ∨ (0 ≤ p ∧ p < 10 ^ 9)) → c < 2 ^ 63 →
      numberNext p c =
        ((if 10 < counterWidth c + prefixWidth p then
            Except.error ("no numbers left to allocate")
          else
            Except.ok ((if p = -1 then 0 else p) *
              (10 : Int) ^ (10 - prefixWidth p) + c)), c + 1)) ∧
    numberNext 123456 9999 = (.ok 1234569999, 10000) ∧
    numberNext 123456 10000 = (.error ("no numbers left to allocate"), 10001) := by
  refine ⟨?_, by decide, by decide⟩
  intro p c hp hc
  have hcW : goDigitCount 64 c = decWidth c :=
    goDigitCount_eq 64 c (lt_trans hc (by norm_num))
  rcases hp with rfl | ⟨h0, h9⟩
  · simp [numberNext, prefixWidth, decWidth, counterWidth, hcW]
    split_ifs <;> rfl
  · have hpn : p ≠ -1 := by omega
    rcases eq_or_lt_of_le h0 with hz | hpos
    · simp [numberNext, ← hz, prefixWidth, decWidth, counterWidth, hcW]
      split_ifs <;> rfl
    · have hgd : goDigitCount 64 p.toNat = prefixWidth p :=
        goDigitCount_eq 64 p.toNat (by omega)
      have hne10 : prefixWidth p ≠ 10 := by
        have hpt : p.toNat ≠ 0 := by omega
        have hlt : p.toNat < 10 ^ 9 := by omega
        have hlog : Nat.log 10 p.toNat < 9 := Nat.log_lt_of_lt_pow hpt hlt
        simp only [prefixWidth, decWidth, if_neg hpt]
        omega
      simp [numberNext, hpos, hpn, hgd, hne10, counterWidth, hcW]
      split_ifs <;> rfl

/-- C5 witness at prefix 123456, counter value 0. -/
theorem c5_next_formula_witness :
    (((123456 : Int) = -1 ∨ ((0 : Int) ≤ 123456 ∧ (123456 : Int) < 10 ^ 9)) ∧
      (0 : Nat) < 2 ^ 63) ∧
    numberNext 123456 0 =
      ((if 10 < counterWidth 0 + prefixWidth 123456 then
          Except.error ("no numbers left to allocate")
        else
          Except.ok ((if (123456 : Int) = -1 then 0 else 123456) *
            (10 : Int) ^ (10 - prefixWidth 123456) + 0)), 0 + 1) :=
  ⟨⟨Or.inr ⟨by norm_num, by norm_num⟩, by norm_num⟩,
    c5_next_formula.1 123456 0 (Or.inr ⟨by norm_num, by norm_num⟩) (by norm_num)⟩

/-! ## Claim C1 -/

/-- C1 is a code bug: the pack/unpack round trip is *not* the identity for
every ASCII string.  For the 167-character input `"a" * 167` (any source
and destination numbers), `NewMessage` splits into a 152-byte part and a
15-byte part; the second part packs 15 + 8 septets = 23 septets into 21
octets, which unpack to 24 septets, and after the 8 header septets are
stripped 16 bytes remain — one spurious NUL more than the text.  The
truncation guard compares against the full user-data length (15 + 8),
which still counts the already-stripped header septets, so the NUL
survives: the reconstruction is the input plus a trailing zero byte.
(The repo test `TestPdu` demands the reconstruction equal the input, and
the decoder comment says the length check exists to strip exactly this
padding byte; the guard is off by the header size in the UDH case.) -/
theorem c1_roundtrip_bug :
    smsRoundTrip 1234567 7654321 (17, 42) (List.replicate 167 97) =
      some (List.replicate 167 97 ++ [0]) ∧
    List.replicate 167 97 ++ [0] ≠ List.replicate 167 97 := by
  constructor
  · decide
  · decide

/-! ## Claim C4 -/


/-- C4 is a code bug: the checksum loop's guard `i == len(nmeaBytes)`
never fires (range indices stop at `len-1`), so the trailing `'*'`
(byte 42) is XORed in, contradicting the comment right above it ("an 8
bit exclusive OR of all characters between, but not including, the `'$'`
and `'*'`").  At the concrete input lat = 0, long = 0, accuracy = 0 (UTC
000000) the emitted sentence ends in the hex of `specNMEAXor nmea0 ^^^ 42`,
which differs from the hex of the specified checksum `specNMEAXor nmea0`. -/
theorem c4_checksum_bug :
    toNMEAString (strBytes ("000000")) (strBytes ("0000.0000"))
        (strBytes ("N")) (strBytes ("00000.0000")) (strBytes ("E"))
        (strBytes ("0.00")) =
      nmea0 ++ hexEncode [specNMEAXor nmea0 ^^^ 42] ∧
    hexEncode [specNMEAXor nmea0 ^^^ 42] ≠ hexEncode [specNMEAXor nmea0] := by
  constructor
  · decide
  · decide

/-! ## Claim C2 -/


/-- C2 counterexample.  The claim says the decoder strips a UDH exactly
when bit 0x40 of the PDU-type byte is set and decodes the user data
unmodified when it is clear.  In `c2pdu` that bit is clear, yet the
decoder — which never looks at the PDU-type byte; `PduUserDataDecode`
keys on the first user-data byte being `<= 0x06` — treats the data as
carrying a 1-byte-reference UDH: it returns `RefLen = 1`, reference 0x2a,
parts 2/1, and the single septet `"1"`, not the unmodified 8-septet
decode of the 7 data octets. -/
theorem c2_counterexample :
    pduSmsUnpack c2pdu = .val (⟨5, 0, [49], 1, (42, 0), 2, 1⟩, false) ∧
    (hexDecode c2pdu).get! 1 &&& 64 = 0 ∧
    pduDecodePlain 9 (hexDecode (c2pdu.drop 30)) ≠
      ⟨5, 0, [49], 1, (42, 0), 2, 1⟩ := by
  refine ⟨by decide, by decide, by decide⟩

/-- The unpack loop only rewrites cells, so it preserves the buffer
length. -/
theorem foldl_gsmDecodeStep_length (l : List (Nat × Nat)) :
    ∀ (init : List Nat), (l.foldl gsmDecodeStep init).length = init.length := by
  induction l with
  | nil => intro init; rfl
  | cons p t ih =>
    intro init
    rw [List.foldl_cons, ih]
    simp [gsmDecodeStep]

theorem gsmDecodeCore_length (b : List Nat) :
    (gsmDecodeCore b).length = 8 * b.length / 7 := by
  unfold gsmDecodeCore
  simp [List.length_take, foldl_gsmDecodeStep_length]

/-- The two slice guards of the UDH tail, discharged: with them the tail
is the stripped decode `udhStrip`. -/
theorem pduDecodeUDHBody_eq (udl : Nat) (b : List Nat) (refLen : Nat)
    (refId : Nat × Nat) (totParts partId : Nat)
    (h1 : b.head! + 1 ≤ b.length)
    (h2 : b.head! + 2 ≤
      (gsmDecodeCore (List.replicate (b.head! + 1) 0 ++
        b.drop (b.head! + 1))).length) :
    pduDecodeUDHBody udl b refLen refId totParts partId =
      .val ⟨0, 0, udhStrip udl b, refLen, refId, totParts, partId⟩ := by
  rw [pduDecodeUDHBody]
  simp only [if_pos h1, if_pos h2]
  rfl

/-- C2 amended: the decoder keys the UDH treatment on the *first
user-data octet*, not on the UDHI bit (which `PduUserDataDecode` never
sees): with at least 7 octets of user data, a first octet above 0x06
decodes the data unmodified, while a first octet `<= 0x06` always strips
`UDHLen + 2` septets, with the 1- versus 2-byte reference variant (and
the concatenation fields) chosen by the second octet being `00` versus
`08`, and no fields set for any other second octet. -/
theorem c2_amended (udl : Nat) (b : List Nat) (h7 : 7 ≤ b.length) :
    (6 < b.head! → PduUserDataDecode udl b = .val (pduDecodePlain udl b)) ∧
    (b.head! ≤ 6 → b.get! 1 = 0 →
      PduUserDataDecode udl b =
        .val ⟨0, 0, udhStrip udl b, 1, (b.get! 3, 0), b.get! 4, b.get! 5⟩) ∧
    (b.head! ≤ 6 → b.get! 1 = 8 →
      PduUserDataDecode udl b =
        .val ⟨0, 0, udhStrip udl b, 2, (b.get! 3, b.get! 4), b.get! 5,
          b.get! 6⟩) ∧
    (b.head! ≤ 6 → b.get! 1 ≠ 0 → b.get! 1 ≠ 8 →
      PduUserDataDecode udl b = .val ⟨0, 0, udhStrip udl b, 0, (0, 0), 0, 0⟩) := by
  have hne : b.isEmpty = false := by
    cases b
    · simp at h7
    · rfl
  have hu1 : ∀ u : Nat, u ≤ 6 → u + 1 ≤ b.length := by omega
  have hs8 : ∀ u : Nat, u ≤ 6 →
      u + 2 ≤ (gsmDecodeCore (List.replicate (u + 1) 0 ++ b.drop (u + 1))).length := by
    intro u hu
    rw [gsmDecodeCore_length]
    have hl : (List.replicate (u + 1) 0 ++ b.drop (u + 1)).length = b.length := by
      simp [List.length_append, List.length_drop]
      omega
    rw [hl]
    have h8 : 8 ≤ 8 * b.length / 7 := by
      rw [Nat.le_div_iff_mul_le (by norm_num)]
      omega
    omega
  have h2 : 2 ≤ b.length := by omega
  have h6 : 6 ≤ b.length := by omega
  refine ⟨?_, ?_, ?_, ?_⟩
  · intro h
    rw [PduUserDataDecode, hne]
    simp only [Bool.false_eq_true, if_false, if_neg (by omega : ¬ b.head! ≤ 6)]
  · intro hu h1
    rw [PduUserDataDecode, hne]
    simp only [Bool.false_eq_true, if_false, if_pos hu]
    rw [pduDecodeUDH, if_pos h2, h1, if_pos rfl, if_pos h6,
      pduDecodeUDHBody_eq udl b _ _ _ _ (hu1 _ hu) (hs8 _ hu)]
  · intro hu h1
    rw [PduUserDataDecode, hne]
    simp only [Bool.false_eq_true, if_false, if_pos hu]
    rw [pduDecodeUDH, if_pos h2, h1]
    rw [if_neg (by norm_num : ¬ (8 : Nat) = 0), if_pos rfl, if_pos h7,
      pduDecodeUDHBody_eq udl b _ _ _ _ (hu1 _ hu) (hs8 _ hu)]
  · intro hu h1 h8
    rw [PduUserDataDecode, hne]
    simp only [Bool.false_eq_true, if_false, if_pos hu]
    rw [pduDecodeUDH, if_pos h2, if_neg h1, if_neg h8,
      pduDecodeUDHBody_eq udl b _ _ _ _ (hu1 _ hu) (hs8 _ hu)]

/-! ## Claim C2 witness -/

/-- C2 amended, witness at the 7-octet user data `05 00 03 2a 02 01 62`
(1-byte-reference header). -/
theorem c2_amended_witness :
    (7 ≤ ([5, 0, 3, 42, 2, 1, 98] : List Nat).length ∧
      ([5, 0, 3, 42, 2, 1, 98] : List Nat).head! ≤ 6 ∧
      ([5, 0, 3, 42, 2, 1, 98] : List Nat).get! 1 = 0) ∧
    PduUserDataDecode 9 [5, 0, 3, 42, 2, 1, 98] =
      .val ⟨0, 0, udhStrip 9 [5, 0, 3, 42, 2, 1, 98], 1,
        (([5, 0, 3, 42, 2, 1, 98] : List Nat).get! 3, 0),
        ([5, 0, 3, 42, 2, 1, 98] : List Nat).get! 4,
        ([5, 0, 3, 42, 2, 1, 98] : List Nat).get! 5⟩ :=
  ⟨⟨by decide, by decide, by decide⟩,
    (c2_amended 9 [5, 0, 3, 42, 2, 1, 98] (by decide)).2.1 (by decide)
      (by decide)⟩

/-! ## Claim C7 -/

/-- The word-by-word span lemma behind the regex model: a run satisfying
`p` followed by a byte that does not. -/
theorem spanAppend (p : Nat → Bool) (l1 : List Nat) (c : Nat) (l2 : List Nat)
    (h1 : ∀ x ∈ l1, p x = true) (hc : p c = false) :
    (l1 ++ c :: l2).takeWhile p = l1 ∧ (l1 ++ c :: l2).dropWhile p = c :: l2 := by
  induction l1 with
  | nil => simp [List.takeWhile, List.dropWhile, hc]
  | cons a t ih =>
    have ha : p a = true := h1 a (by simp)
    have ih' := ih fun x hx => h1 x (by simp [hx])
    simp [List.takeWhile, List.dropWhile, ha, ih'.1, ih'.2]


theorem dropLit_append (lit r : List Nat) : dropLit lit (lit ++ r) = some r := by
  rw [dropLit, if_pos, List.drop_left]
  exact List.isPrefixOf_iff_prefix.mpr (List.prefix_append lit r)

/-- C7 counterexample.  The claim says a well-formed
`SET_NETWORK <id> <key> <value>` with `key == ssid` additionally publishes
the SSID on `NetworkNameChan`.  For the command
`SET_NETWORK 0 ssid "Foo"` (network 0 present) the handler stores the
value and replies `OK`, but its published-SSID list is empty — the
`SET_NETWORK` path never touches `NetworkNameChan`; only `SELECT_NETWORK`
publishes (see `selectNetworkStep`). -/
theorem c7_counterexample :
    setNetworkStep ⟨[(0, [])], -1⟩
        (strBytes ("SET_NETWORK 0 ssid \"Foo\"") ++ [0]) =
      .val (⟨[(0, [(strBytes ("ssid"), strBytes ("\"Foo\""))])], -1⟩,
        strBytes ("OK"), []) := by
  decide

/-- The regex model resolves a well-formed `SET_NETWORK` command into its
three captures. -/
theorem setNetworkParse_wf (ds key value : List Nat)
    (hd : ds ≠ []) (hda : ds.all isDigitChar = true)
    (hk : key ≠ []) (hka : key.all isWordChar = true)
    (hv : value ≠ []) (hva : value.all isPrintChar = true) :
    setNetworkParse (strBytes ("SET_NETWORK ") ++ ds ++ 32 :: key ++ 32 ::
      (value ++ [0])) = some (ds, key, value) := by
  have hds := spanAppend isDigitChar ds 32 (key ++ 32 :: (value ++ [0]))
    (fun x hx => List.all_eq_true.mp hda x hx) (by decide)
  have hkey := spanAppend isWordChar key 32 (value ++ [0])
    (fun x hx => List.all_eq_true.mp hka x hx) (by decide)
  have hval := spanAppend isPrintChar value 0 []
    (fun x hx => List.all_eq_true.mp hva x hx) (by decide)
  rw [setNetworkParse]
  rw [show strBytes ("SET_NETWORK ") ++ ds ++ 32 :: key ++ 32 :: (value ++ [0]) =
      strBytes ("SET_NETWORK ") ++ (ds ++ 32 :: (key ++ 32 :: (value ++ [0])))
    by simp]
  rw [dropLit_append]
  simp only [Option.bind_eq_bind, Option.some_bind]
  rw [hds.1, hds.2]
  simp only [List.isEmpty_eq_true, hd, if_neg, ite_false]
  rw [show (32 : Nat) :: (key ++ 32 :: (value ++ [0])) =
      strBytes (" ") ++ (key ++ 32 :: (value ++ [0])) by rfl]
  rw [dropLit_append]
  simp only [Option.some_bind]
  rw [hkey.1, hkey.2]
  simp only [List.isEmpty_eq_true, hk, if_neg, ite_false]
  rw [show (32 : Nat) :: (value ++ [0]) = strBytes (" ") ++ (value ++ [0]) by rfl]
  rw [dropLit_append]
  simp only [Option.some_bind]
  rw [hval.1]
  simp [List.isEmpty_eq_true, hv]


/-- C7 amended: a well-formed `SET_NETWORK <id> <key> <value>` on an
existing network id stores the value under the key and replies `OK`
(`NULL` only on a parse or `Atoi` failure), but publishes *nothing* on
`NetworkNameChan` — even when the key is `ssid`; the SSID is published by
`SELECT_NETWORK` instead, as the second conjunct states. -/
theorem c7_amended :
    (∀ (m : WifiModem) (ds key value : List Nat) (id : Int)
        (props : List (List Nat × List Nat)),
      ds ≠ [] → ds.all isDigitChar = true →
      key ≠ [] → key.all isWordChar = true →
      value ≠ [] → value.all isPrintChar = true →
      goAtoi ds = some id →
      assocGet m.networks id.toNat = some props →
      setNetworkStep m (strBytes ("SET_NETWORK ") ++ ds ++ 32 :: key ++ 32 ::
          (value ++ [0])) =
        .val ({ m with networks :=
                  netSet m.networks id.toNat (propSet props key value) },
              strBytes ("OK"), [])) ∧
    (∀ (m : WifiModem) (ds : List Nat) (id : Int),
      ds ≠ [] → ds.all isDigitChar = true → goAtoi ds = some id →
      selectNetworkStep m (strBytes ("SELECT_NETWORK ") ++ (ds ++ [0])) =
        ({ m with selectedNetwork := id },
         [propGet ((assocGet m.networks id.toNat).getD [])
            (strBytes ("ssid"))])) := by
  constructor
  · intro m ds key value id props hd hda hk hka hv hva hatoi hget
    simp only [setNetworkStep,
      setNetworkParse_wf ds key value hd hda hk hka hv hva, hatoi, hget]
  · intro m ds id hd hda hatoi
    have hds := spanAppend isDigitChar ds 0 []
      (fun x hx => List.all_eq_true.mp hda x hx) (by decide)
    have hparse : selectNetworkParse (strBytes ("SELECT_NETWORK ") ++
        (ds ++ [0])) = some ds := by
      rw [selectNetworkParse, dropLit_append]
      simp only [Option.bind_eq_bind, Option.some_bind]
      rw [hds.1]
      simp [List.isEmpty_eq_true, hd]
    simp only [selectNetworkStep, hparse, hatoi]

/-- C7 amended, witness: `SET_NETWORK 0 ssid "Foo"` on a modem with
network 0 present, and `SELECT_NETWORK 0` on a modem whose network 0 has
an ssid. -/
theorem c7_amended_witness :
    (([48] : List Nat) ≠ [] ∧ ([48] : List Nat).all isDigitChar = true ∧
      strBytes ("ssid") ≠ [] ∧ (strBytes ("ssid")).all isWordChar = true ∧
      strBytes ("\"Foo\"") ≠ [] ∧
      (strBytes ("\"Foo\"")).all isPrintChar = true ∧
      goAtoi [48] = some 0 ∧
      assocGet (WifiModem.mk [(0, [])] (-1)).networks (0 : Int).toNat =
        some []) ∧
    setNetworkStep ⟨[(0, [])], -1⟩
        (strBytes ("SET_NETWORK ") ++ [48] ++ 32 :: strBytes ("ssid") ++ 32 ::
          (strBytes ("\"Foo\"") ++ [0])) =
      .val ({ WifiModem.mk [(0, [])] (-1) with networks := netSet (WifiModem.mk [(0, [])] (-1)).networks (0 : Int).toNat (propSet [] (strBytes ("ssid")) (strBytes ("\"Foo\""))) },
            strBytes ("OK"), []) ∧
    selectNetworkStep ⟨[(0, [(strBytes ("ssid"), strBytes ("net"))])], -1⟩
        (strBytes ("SELECT_NETWORK ") ++ ([48] ++ [0])) =
      ({ WifiModem.mk [(0, [(strBytes ("ssid"), strBytes ("net"))])] (-1) with
          selectedNetwork := 0 },
       [propGet ((assocGet (WifiModem.mk
            [(0, [(strBytes ("ssid"), strBytes ("net"))])] (-1)).networks
            (0 : Int).toNat).getD []) (strBytes ("ssid"))]) :=
  ⟨⟨by decide, by decide, by decide, by decide, by decide, by decide,
      by decide, by decide⟩,
    c7_amended.1 ⟨[(0, [])], -1⟩ [48] (strBytes ("ssid"))
      (strBytes ("\"Foo\"")) 0 [] (by decide) (by decide) (by decide)
      (by decide) (by decide) (by decide) (by decide) (by decide),
    c7_amended.2 ⟨[(0, [(strBytes ("ssid"), strBytes ("net"))])], -1⟩ [48] 0
      (by decide) (by decide) (by decide)⟩

/-! ## Claim C9 -/

/-- C9: in the CMGS handler (PDU mode), an unpack *error* is only logged:
the handler still overwrites `Src` with the modem's `Number`, still sends
the resulting (partially zero) message on `MessageChan` and appends it to
the `Outbox`, still replies `+CMGS: <mr>`, increments the cyclic `mr`, and
leaves `waserror` false. -/
theorem c9_cmgs_error_ignored (m : Modem) (inputRaw : List Nat)
    (msg : Message) (hmode : m.cmgf ≠ 1) (hinp : inputRaw ≠ [])
    (hunp : pduSmsUnpack inputRaw.dropLast = .val (msg, true)) :
    cmgsStep m inputRaw =
      .val ({ m with Outbox := m.Outbox ++ [{ msg with Src := m.Number }], mr := (m.mr + 1) % 256 },
            strBytes ("\r\n+CMGS: ") ++ goItoa (Int.ofNat m.mr) ++
              strBytes ("\r\n"),
            false, [{ msg with Src := m.Number }]) := by
  have hempty : inputRaw.isEmpty = false := by
    cases inputRaw
    · simp at hinp
    · rfl
  rw [cmgsStep, if_neg hmode, hempty]
  simp only [Bool.false_eq_true, if_false, hunp]

/-- C9 witness: the modem at number 5551234 with `mr = 7` receiving the
PDU `0001230281ab000000` (whose swizzled sender unswizzles to `"ba"` and
fails `Atoi`, the decoder's error path) terminated by Ctrl-Z. -/
theorem c9_cmgs_error_ignored_witness :
    ((Modem.mk 5551234 0 7 [] []).cmgf ≠ 1 ∧
      strBytes ("0001230281ab000000") ++ [26] ≠ [] ∧
      pduSmsUnpack (strBytes ("0001230281ab000000") ++ [26]).dropLast =
        .val (zeroMessage, true)) ∧
    cmgsStep (Modem.mk 5551234 0 7 [] []) (strBytes ("0001230281ab000000") ++ [26]) =
      .val ({ Modem.mk 5551234 0 7 [] [] with Outbox := (Modem.mk 5551234 0 7 [] []).Outbox ++ [{ zeroMessage with Src := (Modem.mk 5551234 0 7 [] []).Number }], mr := ((Modem.mk 5551234 0 7 [] []).mr + 1) % 256 },
            strBytes ("\r\n+CMGS: ") ++
              goItoa (Int.ofNat (Modem.mk 5551234 0 7 [] []).mr) ++
              strBytes ("\r\n"),
            false, [{ zeroMessage with Src := (Modem.mk 5551234 0 7 [] []).Number }]) :=
  ⟨⟨by decide, by decide, by decide⟩,
    c9_cmgs_error_ignored (Modem.mk 5551234 0 7 [] [])
      (strBytes ("0001230281ab000000") ++ [26]) zeroMessage (by decide)
      (by decide) (by decide)⟩

/-! ## Claim C10 -/

/-- C10 counterexample.  The claim says that whenever `pduSmsPack`
succeeds, exactly one copy of the message is appended to the Inbox and
exactly one `+CMT` frame is written to the guest.  For the message with
text `"\x01"` packing succeeds, but the debug re-unpack
`pduSmsUnpack(pdu)` inside `PushSMS` panics — the lone user-data octet
`0x01` is taken as a UDH length and `b[1]` is read out of range — after
the Inbox append and *before* the write, so no frame is ever written. -/
theorem c10_counterexample :
    (pduSmsPack { zeroMessage with Src := 1234567, Message := [1] }).toOption.isSome = true ∧
    PushSMS ⟨0, 0, 0, [], []⟩ { zeroMessage with Src := 1234567, Message := [1] } =
      .crash := by
  refine ⟨by decide, by decide⟩

/-- C10 amended: `PushSMS` is atomic on pack failure — the error is
returned with the state unchanged and nothing written — and when packing
succeeds *and the debug re-unpack of the packed PDU does not panic*,
exactly one copy of the message is appended to the Inbox and exactly one
`\r\n+CMT: 0\r\n<pdu>\r\n` frame is written to the guest. -/
theorem c10_amended (m : Modem) (msg : Message) :
    (∀ e, pduSmsPack msg = .error e → PushSMS m msg = .val (m, [], some e)) ∧
    (∀ pdu r, pduSmsPack msg = .ok pdu → pduSmsUnpack pdu = .val r →
      PushSMS m msg =
        .val ({ m with Inbox := m.Inbox ++ [msg] },
          strBytes ("\r\n+CMT: 0\r\n") ++ pdu ++ strBytes ("\r\n"), none)) := by
  constructor
  · intro e he
    simp only [PushSMS, he]
  · intro pdu r hok hunp
    simp only [PushSMS, hok, hunp]

/-- C10 amended, witness: the failure half at a message with the invalid
`RefLen = 3` (pack error, state unchanged, nothing written) and the
success half at the message `"hi"` from 123. -/
theorem c10_amended_witness :
    (pduSmsPack { zeroMessage with Src := 123, RefLen := 3 } =
        .error ("invalid CSMS length") ∧
      PushSMS ⟨0, 0, 0, [], []⟩ { zeroMessage with Src := 123, RefLen := 3 } =
        .val (⟨0, 0, 0, [], []⟩, [], some ("invalid CSMS length"))) ∧
    (pduSmsPack { zeroMessage with Src := 123, Message := [104, 105] } =
        .ok (strBytes ("0000038121f300000000000000000002e834")) ∧
      pduSmsUnpack (strBytes ("0000038121f300000000000000000002e834")) =
        .val (⟨123, 0, [104, 105], 0, (0, 0), 0, 0⟩, false) ∧
      PushSMS ⟨0, 0, 0, [], []⟩ { zeroMessage with Src := 123, Message := [104, 105] } =
        .val ({ Modem.mk 0 0 0 [] [] with Inbox := (Modem.mk 0 0 0 [] []).Inbox ++ [{ zeroMessage with Src := 123, Message := [104, 105] }] },
          strBytes ("\r\n+CMT: 0\r\n") ++
            strBytes ("0000038121f300000000000000000002e834") ++
            strBytes ("\r\n"), none)) :=
  ⟨⟨by decide,
      (c10_amended ⟨0, 0, 0, [], []⟩ { zeroMessage with Src := 123, RefLen := 3 }).1
        ("invalid CSMS length") (by decide)⟩,
    by decide, by decide,
    (c10_amended ⟨0, 0, 0, [], []⟩ { zeroMessage with Src := 123, Message := [104, 105] }).2
      (strBytes ("0000038121f300000000000000000002e834"))
      (⟨123, 0, [104, 105], 0, (0, 0), 0, 0⟩, false) (by decide) (by decide)⟩

/-! ## Claim C6 -/

theorem logb_hundredth : Real.logb 10 (0.01 : ℝ) = -2 := by
  have h : (0.01 : ℝ) = (10 : ℝ) ^ ((-2 : ℤ) : ℝ) := by
    rw [Real.rpow_intCast]
    norm_num
  rw [h, Real.logb_rpow (by norm_num) (by norm_num)]
  norm_num

theorem logb_2400_lt_4 : Real.logb 10 2400 < 4 := by
  have h1 : Real.logb 10 2400 < Real.logb 10 10000 :=
    Real.logb_lt_logb (by norm_num) (by norm_num) (by norm_num)
  have h2 : Real.logb 10 10000 = 4 := by
    have h : (10000 : ℝ) = (10 : ℝ) ^ ((4 : ℤ) : ℝ) := by
      rw [Real.rpow_intCast]
      norm_num
    rw [h, Real.logb_rpow (by norm_num) (by norm_num)]
    norm_num
  linarith

set_option exponentiation.threshold 2000 in
/-- `20 * log10(2400)` is not the rational 67.55: otherwise
`2400^400 = 10^1351` over the naturals, and 3 divides only the left side. -/
theorem logb_2400_ne : Real.logb 10 2400 ≠ 3.3775 := by
  intro h
  have hx : (10 : ℝ) ^ Real.logb 10 2400 = 2400 :=
    Real.rpow_logb (by norm_num) (by norm_num) (by norm_num)
  rw [h] at hx
  have h400 : ((10 : ℝ) ^ (3.3775 : ℝ)) ^ (400 : ℕ) = (2400 : ℝ) ^ (400 : ℕ) := by
    rw [hx]
  rw [← Real.rpow_natCast ((10 : ℝ) ^ (3.3775 : ℝ)) 400,
    ← Real.rpow_mul (by norm_num)] at h400
  have he : ((3.3775 : ℝ) * ((400 : ℕ) : ℝ)) = ((1351 : ℕ) : ℝ) := by norm_num
  rw [he, Real.rpow_natCast] at h400
  have hnat : (2400 : ℕ) ^ 400 = 10 ^ 1351 := by
    have h2 := h400.symm
    exact_mod_cast h2
  have h3 : (3 : ℕ) ∣ 2400 ^ 400 := dvd_pow (by norm_num) (by norm_num)
  rw [hnat] at h3
  have h4 : (3 : ℕ) ∣ 10 := Nat.Prime.dvd_of_dvd_pow (by norm_num) h3
  norm_num at h4

theorem locationDistance_self (p : Location) : locationDistance p p = 0 := by
  unfold locationDistance
  simp [goAtan2]


/-- At its own location the counterexample AP's signal is
`167.55 - 20*log10(2400)` (distance 0 clamps to 0.01 m). -/
theorem signalStrength_ap6 :
    signalStrength ap6 loc6 = 167.55 - 20 * Real.logb 10 2400 := by
  have hd : locationDistance loc6 ap6.loc = 0 := locationDistance_self loc6
  show ((ap6.power : ℤ) : ℝ) -
      (20 * Real.logb 10 (if locationDistance loc6 ap6.loc = 0 then 0.01
        else locationDistance loc6 ap6.loc) +
       20 * Real.logb 10 2400 - 27.55) = _
  rw [hd, if_pos rfl, logb_hundredth]
  show ((100 : ℤ) : ℝ) - _ = _
  push_cast
  ring_nf

/-- C6 counterexample.  The claim says the scan list carries the AP "at
the AP's computed signal strength" whenever that signal exceeds −70 dBm.
For `ap6` seen from `loc6` the signal does exceed −70 dBm, the AP is
included — but at its *configured* power 100 dBm (`Power: ap.power` in
the source), which provably differs from the computed signal. -/
theorem c6_counterexample :
    visibleEntry ap6 loc6 = some (ap6.ssid, 100) ∧
    (-70 : ℝ) < signalStrength ap6 loc6 ∧
    signalStrength ap6 loc6 ≠ 100 := by
  have hgt : (-70 : ℝ) < signalStrength ap6 loc6 := by
    rw [signalStrength_ap6]
    have := logb_2400_lt_4
    linarith
  have hne : signalStrength ap6 loc6 ≠ 100 := by
    rw [signalStrength_ap6]
    intro h
    exact logb_2400_ne (by linarith)
  refine ⟨?_, hgt, hne⟩
  unfold visibleEntry
  rw [if_pos hgt]
  rfl

/-- C6 amended: after `updateAccessPointsVisible`, the list handed to a
running device's Wi-Fi modem contains the AP *at its configured power*
(`ap.power` dBm, not the computed signal) whenever the computed signal
exceeds −70 dBm; otherwise it contains the AP at −44 dBm when `mW = 0`
(universal), and otherwise omits it; consequently every `mW = 0` AP is
present in the list for every device location. -/
theorem c6_amended (ap : AccessPoint) (loc : Location) :
    ((-70 : ℝ) < signalStrength ap loc →
      visibleEntry ap loc = some (ap.ssid, ap.power)) ∧
    (¬ (-70 : ℝ) < signalStrength ap loc → ap.mW = 0 →
      visibleEntry ap loc = some (ap.ssid, -44)) ∧
    (¬ (-70 : ℝ) < signalStrength ap loc → ap.mW ≠ 0 →
      visibleEntry ap loc = none) ∧
    (ap.mW = 0 → ∀ (aps : List AccessPoint), ap ∈ aps →
      ∃ pw : Int, (ap.ssid, pw) ∈ updateAccessPointsVisible aps loc) := by
  refine ⟨?_, ?_, ?_, ?_⟩
  · intro h
    unfold visibleEntry
    rw [if_pos h]
  · intro h hmw
    unfold visibleEntry
    rw [if_neg h, if_pos hmw]
  · intro h hmw
    unfold visibleEntry
    rw [if_neg h, if_neg hmw]
  · intro hmw aps hmem
    by_cases hs : (-70 : ℝ) < signalStrength ap loc
    · refine ⟨ap.power, ?_⟩
      rw [updateAccessPointsVisible, List.mem_filterMap]
      refine ⟨ap, hmem, ?_⟩
      unfold visibleEntry
      rw [if_pos hs]
    · refine ⟨-44, ?_⟩
      rw [updateAccessPointsVisible, List.mem_filterMap]
      refine ⟨ap, hmem, ?_⟩
      unfold visibleEntry
      rw [if_neg hs, if_pos hmw]


/-- C6 amended, witness: `ap6` is visible from `loc6` at its configured
power, and the universal AP `apU` is present in the computed list. -/
theorem c6_amended_witness :
    ((-70 : ℝ) < signalStrength ap6 loc6 ∧
      visibleEntry ap6 loc6 = some (ap6.ssid, ap6.power)) ∧
    (apU.mW = 0 ∧
      ∃ pw : Int, (apU.ssid, pw) ∈ updateAccessPointsVisible [apU] loc6) := by
  have hgt : (-70 : ℝ) < signalStrength ap6 loc6 := by
    rw [signalStrength_ap6]
    have := logb_2400_lt_4
    linarith
  exact ⟨⟨hgt, (c6_amended ap6 loc6).1 hgt⟩,
    ⟨rfl, (c6_amended apU loc6).2.2.2 rfl [apU] (by simp)⟩⟩
